import Mathlib

/-!
Shallow embedding of the external-dns OPNsense Unbound webhook provider
(`internal/pkg/provider` and `internal/pkg/api`).

The remote store is modelled as an always-succeeding in-memory backend that
assigns fresh IDs on create, together with an explicit trace of the remote
calls issued.  Go maps keyed by DNS name are modelled as association lists
with replace-on-insert semantics.  Code paths that index out of range in Go
(`parts[1]`, `Targets[0]`, `UpdateNew[i]`) are modelled by an explicit
`crash` outcome, distinct from returning an error.
-/

namespace Unbound

/-- Endpoint (external-dns `endpoint.Endpoint`): the fields the provider
reads — DNSName, Targets, RecordType (a string: "A", "CNAME", or other). -/
structure Endpoint where
  dnsName : String
  targets : List String
  recordType : String
deriving DecidableEq

/-- `api.HostOverride`: an address record (ID, Hostname, Domain, Server). -/
structure HostOverride where
  id : String
  hostname : String
  domain : String
  server : String
deriving DecidableEq

/-- `api.HostAlias`: a CNAME alias record (ID, Host = reference target,
HostID = foreign key to a HostOverride, Hostname, Domain). -/
structure HostAlias where
  id : String
  host : String
  hostID : String
  hostname : String
  domain : String
deriving DecidableEq

/-- Split a list of characters at the first `.`:
`none` when no dot occurs, else `some (before, after)`. -/
def splitDotAux : List Char → Option (List Char × List Char)
  | [] => none
  | c :: cs =>
    if c = '.' then some ([], cs)
    else
      match splitDotAux cs with
      | none => none
      | some (pre, post) => some (c :: pre, post)

/-- Go `strings.SplitN(s, ".", 2)`: `[s]` when `s` has no dot, otherwise
the part before the first dot and the rest. -/
def splitN2 (s : String) : List String :=
  match splitDotAux s.data with
  | none => [s]
  | some (pre, post) => [String.mk pre, String.mk post]

/-- Go `(*HostOverride).DNSName()`: `hostname + "." + domain`. -/
def HostOverride.dnsName (r : HostOverride) : String :=
  r.hostname ++ "." ++ r.domain

/-- Go `(*HostOverride).Endpoint()`. -/
def HostOverride.endpoint (r : HostOverride) : Endpoint :=
  { dnsName := r.hostname ++ "." ++ r.domain
    targets := [r.server]
    recordType := "A" }

/-- Go `(*HostOverride).Update(ep)`: split the DNS name at the first dot
into hostname/domain and take the first target; `none` models the
index-out-of-range panic when the name has no dot or targets are empty. -/
def HostOverride.update (r : HostOverride) (ep : Endpoint) : Option HostOverride :=
  match splitN2 ep.dnsName, ep.targets with
  | [h, d], t :: _ => some { r with hostname := h, domain := d, server := t }
  | _, _ => none

/-- Go `(*HostAlias).DNSName()`. -/
def HostAlias.dnsName (r : HostAlias) : String :=
  r.hostname ++ "." ++ r.domain

/-- Go `(*HostAlias).Endpoint()`. -/
def HostAlias.endpoint (r : HostAlias) : Endpoint :=
  { dnsName := r.hostname ++ "." ++ r.domain
    targets := [r.host]
    recordType := "CNAME" }

/-- Go `(*HostAlias).Update(ep)`: like `HostOverride.update`, setting
hostname/domain from the split name and `host` from the first target. -/
def HostAlias.update (r : HostAlias) (ep : Endpoint) : Option HostAlias :=
  match splitN2 ep.dnsName, ep.targets with
  | [h, d], t :: _ => some { r with hostname := h, domain := d, host := t }
  | _, _ => none

/-- Association list with string keys, modelling a Go `map[string]V`. -/
abbrev Table (α : Type) := List (String × α)

/-- Go map read `m[k]` (with the `ok` flag): first binding for `k`. -/
def Table.find? {α : Type} : Table α → String → Option α
  | [], _ => none
  | (k', v) :: rest, k => if k' = k then some v else Table.find? rest k

/-- Go map write `m[k] = v`: replace the binding in place, or append. -/
def Table.insert {α : Type} : Table α → String → α → Table α
  | [], k, v => [(k, v)]
  | (k', v') :: rest, k, v =>
    if k' = k then (k, v) :: rest else (k', v') :: Table.insert rest k v

/-- Go `delete(m, k)`: drop the binding for `k`. -/
def Table.erase {α : Type} : Table α → String → Table α
  | [], _ => []
  | (k', v') :: rest, k =>
    if k' = k then Table.erase rest k else (k', v') :: Table.erase rest k

/-- The remote store's contents, per spec section 6: address records, alias
records, and a counter from which the backend assigns fresh IDs. -/
structure Backend where
  overrides : List HostOverride
  aliases : List HostAlias
  fresh : Nat
deriving DecidableEq

/-- Backend-assigned ID for the n-th created entity. -/
def freshID (n : Nat) : String :=
  "uuid-" ++ toString n

/-- `ListHostAliases(id)`: the alias records whose foreign key is `id`,
in stored order. -/
def Backend.aliasesOf (b : Backend) (id : String) : List HostAlias :=
  b.aliases.filter (fun a => a.hostID = id)

/-- `CreateHostOverride`: assign a fresh ID, store, return the record. -/
def Backend.createHostOverride (b : Backend) (rec : HostOverride) :
    HostOverride × Backend :=
  let r := { rec with id := freshID b.fresh }
  (r, { b with overrides := b.overrides ++ [r], fresh := b.fresh + 1 })

/-- `DeleteHostOverride`: remove the record with the given ID. -/
def Backend.deleteHostOverride (b : Backend) (rec : HostOverride) : Backend :=
  { b with overrides := b.overrides.filter (fun r => r.id ≠ rec.id) }

/-- `UpdateHostOverride`: replace the record with the same ID. -/
def Backend.updateHostOverride (b : Backend) (rec : HostOverride) : Backend :=
  { b with overrides := b.overrides.map (fun r => if r.id = rec.id then rec else r) }

/-- `CreateHostAlias`: assign a fresh ID, store, return the record. -/
def Backend.createHostAlias (b : Backend) (rec : HostAlias) :
    HostAlias × Backend :=
  let r := { rec with id := freshID b.fresh }
  (r, { b with aliases := b.aliases ++ [r], fresh := b.fresh + 1 })

/-- `DeleteHostAlias`: remove the alias with the given ID. -/
def Backend.deleteHostAlias (b : Backend) (rec : HostAlias) : Backend :=
  { b with aliases := b.aliases.filter (fun r => r.id ≠ rec.id) }

/-- `UpdateHostAlias`: replace the alias with the same ID. -/
def Backend.updateHostAlias (b : Backend) (rec : HostAlias) : Backend :=
  { b with aliases := b.aliases.map (fun r => if r.id = rec.id then rec else r) }

/-- One remote call, as issued by the provider (argument = the value the
provider passed). -/
inductive Call where
  | listHostOverrides
  | listHostAliases (id : String)
  | createHostOverride (ho : HostOverride)
  | updateHostOverride (ho : HostOverride)
  | deleteHostOverride (ho : HostOverride)
  | createHostAlias (ha : HostAlias)
  | updateHostAlias (ha : HostAlias)
  | deleteHostAlias (ha : HostAlias)
deriving DecidableEq

/-- The state threaded through `ApplyChanges`: the two local lookup tables
(`aRecordsByDNSName`, `cnameRecordsByDNSName`), the backend, and the trace
of remote calls issued so far. -/
structure St where
  aRecs : Table HostOverride
  cnames : Table HostAlias
  backend : Backend
  trace : List Call
deriving DecidableEq

/-- Outcome of a piece of `ApplyChanges`: normal continuation with a state,
a returned Go error (carrying the state at the error point — side effects
already applied are kept), or abnormal termination (a Go runtime panic). -/
inductive Step where
  | ok (st : St)
  | err (st : St) (msg : String)
  | crash
deriving DecidableEq

/-- Sequencing: continue with `f` on `ok`, short-circuit otherwise. -/
def Step.seq (r : Step) (f : St → Step) : Step :=
  match r with
  | .ok st => f st
  | r => r

/-- Body of the `changes.Delete` loop of `ApplyChanges`. -/
def applyDelete (st : St) (ep : Endpoint) : Step :=
  if ep.recordType = "A" then
    match st.aRecs.find? ep.dnsName with
    | some ho =>
      Step.ok { st with
        aRecs := st.aRecs.erase ep.dnsName
        backend := st.backend.deleteHostOverride ho
        trace := st.trace ++ [Call.deleteHostOverride ho] }
    | none => Step.ok st
  else if ep.recordType = "CNAME" then
    match st.cnames.find? ep.dnsName with
    | some ha =>
      Step.ok { st with
        cnames := st.cnames.erase ep.dnsName
        backend := st.backend.deleteHostAlias ha
        trace := st.trace ++ [Call.deleteHostAlias ha] }
    | none => Step.ok st
  else Step.ok st

/-- Body of the `changes.Create` loop of `ApplyChanges`. -/
def applyCreate (st : St) (ep : Endpoint) : Step :=
  if ep.recordType = "A" then
    match HostOverride.update ⟨"", "", "", ""⟩ ep with
    | none => Step.crash
    | some ho =>
      let res := st.backend.createHostOverride ho
      Step.ok { st with
        aRecs := st.aRecs.insert res.1.dnsName res.1
        backend := res.2
        trace := st.trace ++ [Call.createHostOverride ho] }
  else if ep.recordType = "CNAME" then
    match ep.targets with
    | [] => Step.crash
    | t :: _ =>
      match st.aRecs.find? t with
      | some ho =>
        match HostAlias.update ⟨"", "", ho.id, "", ""⟩ ep with
        | none => Step.crash
        | some ha =>
          let res := st.backend.createHostAlias ha
          Step.ok { st with
            cnames := st.cnames.insert res.1.dnsName res.1
            backend := res.2
            trace := st.trace ++ [Call.createHostAlias ha] }
      | none => Step.err st "failed to create host alias: target host override not found"
  else Step.ok st

/-- Body of the update loop of `ApplyChanges`, for one old/new pair. -/
def applyUpdate (st : St) (oldEP newEP : Endpoint) : Step :=
  if oldEP.recordType = "A" then
    match st.aRecs.find? oldEP.dnsName with
    | some ho =>
      match ho.update newEP with
      | none => Step.crash
      | some ho' =>
        Step.ok { st with
          aRecs := st.aRecs.insert ho'.dnsName ho'
          backend := st.backend.updateHostOverride ho'
          trace := st.trace ++ [Call.updateHostOverride ho'] }
    | none => Step.ok st
  else if oldEP.recordType = "CNAME" then
    match st.cnames.find? oldEP.dnsName with
    | some haOld =>
      match newEP.targets with
      | [] => Step.crash
      | t :: _ =>
        match st.aRecs.find? t with
        | some ho =>
          match haOld.update newEP with
          | none => Step.crash
          | some ha1 =>
            let ha := { ha1 with hostID := ho.id }
            Step.ok { st with
              cnames := st.cnames.insert ha.dnsName ha
              backend := st.backend.updateHostAlias ha
              trace := st.trace ++ [Call.updateHostAlias ha] }
        | none => Step.err st "failed to update host alias: target host override not found"
    | none => Step.err st "host alias not found"
  else Step.ok st

/-- The `changes.Delete` loop. -/
def processDeletes (st : St) : List Endpoint → Step
  | [] => Step.ok st
  | ep :: eps =>
    match applyDelete st ep with
    | Step.ok st' => processDeletes st' eps
    | r => r

/-- The `changes.Create` loop. -/
def processCreates (st : St) : List Endpoint → Step
  | [] => Step.ok st
  | ep :: eps =>
    match applyCreate st ep with
    | Step.ok st' => processCreates st' eps
    | r => r

/-- The update loop: iterates over `UpdateOld`, reads `UpdateNew[i]`;
a too-short `UpdateNew` is the Go index-out-of-range panic. -/
def processUpdates (st : St) : List Endpoint → List Endpoint → Step
  | [], _ => Step.ok st
  | _ :: _, [] => Step.crash
  | o :: os, n :: ns =>
    match applyUpdate st o n with
    | Step.ok st' => processUpdates st' os ns
    | r => r

/-- `aRecordsByDNSName`: built from the listed host overrides in order. -/
def buildARecs (hos : List HostOverride) : Table HostOverride :=
  hos.foldl (fun t ho => t.insert ho.dnsName ho) []

/-- `cnameRecordsByDNSName`: for each listed host override, list its
aliases and index them by DNS name. -/
def buildCnames (b : Backend) (hos : List HostOverride) : Table HostAlias :=
  hos.foldl (fun t ho => (b.aliasesOf ho.id).foldl (fun u ha => u.insert ha.dnsName ha) t) []

/-- The remote list calls `ApplyChanges` issues while building its tables. -/
def listCalls (hos : List HostOverride) : List Call :=
  Call.listHostOverrides :: hos.map (fun ho => Call.listHostAliases ho.id)

/-- State of `ApplyChanges` after its table-building setup phase. -/
def initState (b : Backend) : St :=
  { aRecs := buildARecs b.overrides
    cnames := buildCnames b b.overrides
    backend := b
    trace := listCalls b.overrides }

/-- `plan.Changes`: the four lists of a batch. -/
structure Changes where
  Create : List Endpoint
  UpdateOld : List Endpoint
  UpdateNew : List Endpoint
  Delete : List Endpoint
deriving DecidableEq

/-- Modelled from the spec: `plan.Changes.HasChanges` lives in the external
external-dns library, not in this repository; per the spec, a batch with no
entries in any of the four lists has no changes. -/
def Changes.hasChanges (c : Changes) : Bool :=
  !(c.Create.isEmpty && c.Delete.isEmpty && c.UpdateOld.isEmpty && c.UpdateNew.isEmpty)

/-- `unboundProvider.ApplyChanges`: early return on an empty batch, build
the two lookup tables, then process deletes, creates, and update pairs. -/
def applyChanges (b : Backend) (ch : Changes) : Step :=
  if ch.hasChanges then
    match processDeletes (initState b) ch.Delete with
    | Step.ok st1 =>
      match processCreates st1 ch.Create with
      | Step.ok st2 => processUpdates st2 ch.UpdateOld ch.UpdateNew
      | r => r
    | r => r
  else Step.ok { aRecs := [], cnames := [], backend := b, trace := [] }

/-- `unboundProvider.Records`: one endpoint per host override, each followed
by the endpoints of its aliases, in fetch order (loop of appends). -/
def records (b : Backend) : List Endpoint :=
  b.overrides.foldl
    (fun acc r => (acc ++ [r.endpoint]) ++ (b.aliasesOf r.id).map HostAlias.endpoint) []

/-- Body of the `AdjustEndpoints` loop: an A-kind endpoint keeps only its
first target (`none` models the panic when it has no targets). -/
def adjustEndpoint (e : Endpoint) : Option Endpoint :=
  if e.recordType = "A" then
    match e.targets with
    | [] => none
    | t :: _ => some { e with targets := [t] }
  else some e

/-- `unboundProvider.AdjustEndpoints`: adjust each endpoint in order; a
panic anywhere yields no result. -/
def adjustEndpoints : List Endpoint → Option (List Endpoint)
  | [] => some []
  | e :: es =>
    match adjustEndpoint e with
    | none => none
    | some e' =>
      match adjustEndpoints es with
      | none => none
      | some es' => some (e' :: es')

/-- Well-formedness of an endpoint as the provider's code assumes it: the
DNS name splits at a dot into hostname and domain, and the target list is
non-empty. -/
def wfEndpoint (e : Endpoint) : Prop :=
  (splitN2 e.dnsName).length = 2 ∧ e.targets ≠ []

instance (e : Endpoint) : Decidable (wfEndpoint e) := by
  unfold wfEndpoint
  infer_instance

/-! ## General lemmas about the embedding -/

theorem Table.find?_insert_self {α : Type} (t : Table α) (k : String) (v : α) :
    (t.insert k v).find? k = some v := by
  induction t with
  | nil => simp [Table.insert, Table.find?]
  | cons p rest ih =>
    by_cases h : p.1 = k
    · simp [Table.insert, h, Table.find?]
    · simp [Table.insert, h, Table.find?, ih]

theorem Table.find?_insert_ne {α : Type} (t : Table α) (k k' : String) (v : α)
    (h : k ≠ k') : (t.insert k v).find? k' = t.find? k' := by
  induction t with
  | nil => simp [Table.insert, Table.find?, h]
  | cons p rest ih =>
    obtain ⟨k₁, v₁⟩ := p
    by_cases hp : k₁ = k
    · subst hp
      simp [Table.insert, Table.find?, h]
    · simp [Table.insert, hp, Table.find?, ih]

theorem adjustEndpoint_a (e : Endpoint) (t : String) (ts : List String)
    (hk : e.recordType = "A") (ht : e.targets = t :: ts) :
    adjustEndpoint e = some { e with targets := [t] } := by
  simp [adjustEndpoint, hk, ht]

theorem adjustEndpoint_other (e : Endpoint) (hk : ¬e.recordType = "A") :
    adjustEndpoint e = some e := by
  simp [adjustEndpoint, hk]

theorem adjustEndpoint_shape (e e' : Endpoint) (h : adjustEndpoint e = some e') :
    (e.recordType = "A" → ∃ t ts, e.targets = t :: ts ∧ e' = { e with targets := [t] }) ∧
    (¬e.recordType = "A" → e' = e) := by
  by_cases hk : e.recordType = "A"
  · match ht : e.targets with
    | [] => simp [adjustEndpoint, hk, ht] at h
    | t :: ts =>
      rw [adjustEndpoint_a e t ts hk ht] at h
      exact ⟨fun _ => ⟨t, ts, rfl, (Option.some_inj.mp h).symm⟩, fun hn => absurd hk hn⟩
  · rw [adjustEndpoint_other e hk] at h
    exact ⟨fun hA => absurd hA hk, fun _ => (Option.some_inj.mp h).symm⟩

theorem adjustEndpoint_fix (e e' : Endpoint) (h : adjustEndpoint e = some e') :
    adjustEndpoint e' = some e' := by
  obtain ⟨hA, hO⟩ := adjustEndpoint_shape e e' h
  by_cases hk : e.recordType = "A"
  · obtain ⟨t, ts, _, he'⟩ := hA hk
    subst he'
    exact adjustEndpoint_a _ t [] hk rfl
  · rw [hO hk]
    exact adjustEndpoint_other e hk

theorem adjustEndpoints_fix (eps l : List Endpoint)
    (h : adjustEndpoints eps = some l) : adjustEndpoints l = some l := by
  induction eps generalizing l with
  | nil =>
    simp [adjustEndpoints] at h
    subst h
    rfl
  | cons e es ih =>
    match he : adjustEndpoint e, hes : adjustEndpoints es with
    | none, _ => simp [adjustEndpoints, he] at h
    | some e', none => simp [adjustEndpoints, he, hes] at h
    | some e', some es' =>
      simp [adjustEndpoints, he, hes] at h
      rw [← h]
      simp [adjustEndpoints, adjustEndpoint_fix e e' he, ih es' hes]

theorem adjustEndpoints_shape (eps l : List Endpoint)
    (h : adjustEndpoints eps = some l) :
    List.Forall₂ (fun e e' =>
      (e.recordType = "A" → ∃ t ts, e.targets = t :: ts ∧ e' = { e with targets := [t] }) ∧
      (¬e.recordType = "A" → e' = e)) eps l := by
  induction eps generalizing l with
  | nil =>
    simp [adjustEndpoints] at h
    subst h
    exact List.Forall₂.nil
  | cons e es ih =>
    match he : adjustEndpoint e, hes : adjustEndpoints es with
    | none, _ => simp [adjustEndpoints, he] at h
    | some e', none => simp [adjustEndpoints, he, hes] at h
    | some e', some es' =>
      simp [adjustEndpoints, he, hes] at h
      rw [← h]
      exact List.Forall₂.cons (adjustEndpoint_shape e e' he) (ih es' hes)

theorem Step.seq_err (st : St) (m : String) (f : St → Step) :
    Step.seq (Step.err st m) f = Step.err st m := rfl

theorem Step.seq_crash (f : St → Step) : Step.seq Step.crash f = Step.crash := rfl

theorem processDeletes_append (l1 l2 : List Endpoint) : ∀ st : St,
    processDeletes st (l1 ++ l2) = (processDeletes st l1).seq (fun s => processDeletes s l2) := by
  induction l1 with
  | nil => intro st; rfl
  | cons ep eps ih =>
    intro st
    simp only [List.cons_append, processDeletes]
    cases h : applyDelete st ep with
    | ok st' => exact ih st'
    | err st' m => rfl
    | crash => rfl

theorem processCreates_append (l1 l2 : List Endpoint) : ∀ st : St,
    processCreates st (l1 ++ l2) = (processCreates st l1).seq (fun s => processCreates s l2) := by
  induction l1 with
  | nil => intro st; rfl
  | cons ep eps ih =>
    intro st
    simp only [List.cons_append, processCreates]
    cases h : applyCreate st ep with
    | ok st' => exact ih st'
    | err st' m => rfl
    | crash => rfl

theorem processUpdates_append (o1 : List Endpoint) :
    ∀ (n1 : List Endpoint) (o2 n2 : List Endpoint) (st : St), o1.length = n1.length →
      processUpdates st (o1 ++ o2) (n1 ++ n2) =
        (processUpdates st o1 n1).seq (fun s => processUpdates s o2 n2) := by
  induction o1 with
  | nil =>
    intro n1 o2 n2 st h
    have hn : n1 = [] := List.eq_nil_of_length_eq_zero h.symm
    subst hn
    rfl
  | cons o os ih =>
    intro n1 o2 n2 st h
    match n1 with
    | [] => simp at h
    | n :: ns =>
      simp only [List.cons_append, processUpdates]
      cases hu : applyUpdate st o n with
      | ok st' => exact ih ns o2 n2 st' (by simpa using h)
      | err st' m => rfl
      | crash => rfl

theorem applyChanges_phases (b : Backend) (ch : Changes) (h : ch.hasChanges = true) :
    applyChanges b ch =
      (processDeletes (initState b) ch.Delete).seq (fun s1 =>
        (processCreates s1 ch.Create).seq (fun s2 =>
          processUpdates s2 ch.UpdateOld ch.UpdateNew)) := by
  simp only [applyChanges, h, if_true]
  cases processDeletes (initState b) ch.Delete with
  | ok st1 =>
    cases processCreates st1 ch.Create with
    | ok st2 => rfl
    | err st' m => rfl
    | crash => rfl
  | err st' m => rfl
  | crash => rfl

theorem hostOverride_update_some (r : HostOverride) (ep : Endpoint) (h d t : String)
    (ts : List String) (hs : splitN2 ep.dnsName = [h, d]) (ht : ep.targets = t :: ts) :
    r.update ep = some { r with hostname := h, domain := d, server := t } := by
  simp [HostOverride.update, hs, ht]

theorem hostAlias_update_some (r : HostAlias) (ep : Endpoint) (h d t : String)
    (ts : List String) (hs : splitN2 ep.dnsName = [h, d]) (ht : ep.targets = t :: ts) :
    r.update ep = some { r with hostname := h, domain := d, host := t } := by
  simp [HostAlias.update, hs, ht]

theorem applyUpdate_a_found (st : St) (oldEP newEP : Endpoint) (ho : HostOverride)
    (h d t : String) (ts : List String) (hk : oldEP.recordType = "A")
    (hfound : st.aRecs.find? oldEP.dnsName = some ho)
    (hs : splitN2 newEP.dnsName = [h, d]) (ht : newEP.targets = t :: ts) :
    applyUpdate st oldEP newEP =
      Step.ok { st with
        aRecs := st.aRecs.insert (h ++ "." ++ d)
                   { ho with hostname := h, domain := d, server := t }
        backend := st.backend.updateHostOverride
                   { ho with hostname := h, domain := d, server := t }
        trace := st.trace ++ [Call.updateHostOverride
                   { ho with hostname := h, domain := d, server := t }] } := by
  simp [applyUpdate, hk, hfound, hostOverride_update_some ho newEP h d t ts hs ht,
        HostOverride.dnsName]

theorem applyUpdate_cname_found (st : St) (oldEP newEP : Endpoint) (haOld : HostAlias)
    (ho : HostOverride) (h d t : String) (ts : List String)
    (hk : oldEP.recordType = "CNAME")
    (hfound : st.cnames.find? oldEP.dnsName = some haOld)
    (ht : newEP.targets = t :: ts)
    (hres : st.aRecs.find? t = some ho)
    (hs : splitN2 newEP.dnsName = [h, d]) :
    applyUpdate st oldEP newEP =
      Step.ok { st with
        cnames := st.cnames.insert (h ++ "." ++ d)
                    { haOld with hostname := h, domain := d, host := t, hostID := ho.id }
        backend := st.backend.updateHostAlias
                    { haOld with hostname := h, domain := d, host := t, hostID := ho.id }
        trace := st.trace ++ [Call.updateHostAlias
                    { haOld with hostname := h, domain := d, host := t, hostID := ho.id }] } := by
  have hkA : ¬oldEP.recordType = "A" := by rw [hk]; decide
  simp [applyUpdate, hkA, hk, hfound, ht, hres,
        hostAlias_update_some haOld newEP h d t ts hs ht, HostAlias.dnsName]

theorem applyCreate_a (st : St) (ep : Endpoint) (h d t : String) (ts : List String)
    (hk : ep.recordType = "A") (hs : splitN2 ep.dnsName = [h, d])
    (ht : ep.targets = t :: ts) :
    applyCreate st ep =
      Step.ok { st with
        aRecs := st.aRecs.insert (h ++ "." ++ d) ⟨freshID st.backend.fresh, h, d, t⟩
        backend := { st.backend with
          overrides := st.backend.overrides ++ [⟨freshID st.backend.fresh, h, d, t⟩]
          fresh := st.backend.fresh + 1 }
        trace := st.trace ++ [Call.createHostOverride ⟨"", h, d, t⟩] } := by
  simp [applyCreate, hk, hostOverride_update_some ⟨"", "", "", ""⟩ ep h d t ts hs ht,
        Backend.createHostOverride, HostOverride.dnsName]

theorem applyCreate_cname_found (st : St) (ep : Endpoint) (ho : HostOverride)
    (h d t : String) (ts : List String)
    (hk : ep.recordType = "CNAME") (ht : ep.targets = t :: ts)
    (hsome : st.aRecs.find? t = some ho) (hs : splitN2 ep.dnsName = [h, d]) :
    applyCreate st ep =
      Step.ok { st with
        cnames := st.cnames.insert (h ++ "." ++ d)
                    ⟨freshID st.backend.fresh, t, ho.id, h, d⟩
        backend := { st.backend with
          aliases := st.backend.aliases ++ [⟨freshID st.backend.fresh, t, ho.id, h, d⟩]
          fresh := st.backend.fresh + 1 }
        trace := st.trace ++ [Call.createHostAlias ⟨"", t, ho.id, h, d⟩] } := by
  have hkA : ¬ep.recordType = "A" := by rw [hk]; decide
  simp [applyCreate, hkA, hk, ht, hsome,
        hostAlias_update_some ⟨"", "", ho.id, "", ""⟩ ep h d t ts hs ht,
        Backend.createHostAlias, HostAlias.dnsName]

theorem applyCreate_cname_miss (st : St) (ep : Endpoint) (t : String)
    (ts : List String) (hk : ep.recordType = "CNAME") (ht : ep.targets = t :: ts)
    (hnone : st.aRecs.find? t = none) :
    applyCreate st ep =
      Step.err st "failed to create host alias: target host override not found" := by
  have hkA : ¬ep.recordType = "A" := by rw [hk]; decide
  simp [applyCreate, hkA, hk, ht, hnone]

/-! ## Claim theorems -/

/-- C8: AdjustEndpoints is idempotent — applying it twice yields the same
result as applying it once — and on success every Address-kind endpoint
ends with exactly its original first target while endpoints of other kinds
pass through unchanged, in the original order (index-aligned `Forall₂`). -/
theorem c8_adjustEndpoints_idempotent (eps : List Endpoint) :
    (adjustEndpoints eps).bind adjustEndpoints = adjustEndpoints eps ∧
    (∀ l, adjustEndpoints eps = some l →
      List.Forall₂ (fun e e' =>
        (e.recordType = "A" → ∃ t ts, e.targets = t :: ts ∧ e' = { e with targets := [t] }) ∧
        (¬e.recordType = "A" → e' = e)) eps l) := by
  constructor
  · match h : adjustEndpoints eps with
    | none => rfl
    | some l => simp [adjustEndpoints_fix eps l h]
  · exact fun l h => adjustEndpoints_shape eps l h

/-- Witness for C8 at a concrete input: a two-target A endpoint and a
CNAME endpoint. -/
theorem c8_witness :
    (adjustEndpoints [⟨"a.x", ["1", "2"], "A"⟩, ⟨"c.x", ["a.x"], "CNAME"⟩]).bind adjustEndpoints
        = adjustEndpoints [⟨"a.x", ["1", "2"], "A"⟩, ⟨"c.x", ["a.x"], "CNAME"⟩] ∧
      List.Forall₂ (fun e e' : Endpoint =>
        (e.recordType = "A" → ∃ t ts, e.targets = t :: ts ∧ e' = { e with targets := [t] }) ∧
        (¬e.recordType = "A" → e' = e))
        [⟨"a.x", ["1", "2"], "A"⟩, ⟨"c.x", ["a.x"], "CNAME"⟩]
        [⟨"a.x", ["1"], "A"⟩, ⟨"c.x", ["a.x"], "CNAME"⟩] :=
  ⟨(c8_adjustEndpoints_idempotent [⟨"a.x", ["1", "2"], "A"⟩, ⟨"c.x", ["a.x"], "CNAME"⟩]).1,
   (c8_adjustEndpoints_idempotent [⟨"a.x", ["1", "2"], "A"⟩, ⟨"c.x", ["a.x"], "CNAME"⟩]).2
     [⟨"a.x", ["1"], "A"⟩, ⟨"c.x", ["a.x"], "CNAME"⟩] (by rfl)⟩

/-- C4 counterexample: an Address-kind endpoint with an empty target list
makes AdjustEndpoints terminate abnormally (index out of range), so it is
not a total function on all endpoint lists. -/
theorem c4_counterexample :
    adjustEndpoints [⟨"a.x", [], "A"⟩] = none := rfl

/-- C4 amended: AdjustEndpoints returns a result for every input list in
which every Address-kind endpoint has a non-empty target list; an
Address-kind endpoint with no targets crashes it. -/
theorem c4_total_when_targets_nonempty (eps : List Endpoint)
    (h : ∀ e ∈ eps, e.recordType = "A" → e.targets ≠ []) :
    ∃ l, adjustEndpoints eps = some l := by
  induction eps with
  | nil => exact ⟨[], rfl⟩
  | cons e es ih =>
    obtain ⟨l, hl⟩ := ih (fun x hx => h x (List.mem_cons_of_mem e hx))
    by_cases hk : e.recordType = "A"
    · match ht : e.targets with
      | [] => exact absurd ht (h e (List.mem_cons_self e es) hk)
      | t :: ts =>
        refine ⟨{ e with targets := [t] } :: l, ?_⟩
        simp [adjustEndpoints, adjustEndpoint_a e t ts hk ht, hl]
    · refine ⟨e :: l, ?_⟩
      simp [adjustEndpoints, adjustEndpoint_other e hk, hl]

/-- Witness for C4's amended theorem at a concrete input. -/
theorem c4_witness :
    ∃ l, adjustEndpoints [⟨"a.x", ["1", "2"], "A"⟩, ⟨"t.x", [], "TXT"⟩] = some l :=
  c4_total_when_targets_nonempty _ (by decide)

theorem records_foldl (b : Backend) (l : List HostOverride) (acc : List Endpoint) :
    l.foldl (fun acc r => (acc ++ [r.endpoint]) ++ (b.aliasesOf r.id).map HostAlias.endpoint) acc
      = acc ++ l.flatMap (fun r => r.endpoint :: (b.aliasesOf r.id).map HostAlias.endpoint) := by
  induction l generalizing acc with
  | nil => simp
  | cons r rest ih =>
    rw [List.foldl_cons, ih]
    simp

/-- C5: Records flattens the backend into, per address record in fetch
order, one Address-kind endpoint (name `hostname.domain`, single target =
the stored server) followed by one CanonicalName-kind endpoint per alias of
that record (name `hostname.domain`, single target = the stored reference
name); a backend with zero entities yields the empty list. -/
theorem c5_records_shape (b : Backend) :
    records b = b.overrides.flatMap (fun r =>
        Endpoint.mk (r.hostname ++ "." ++ r.domain) [r.server] "A"
          :: (b.aliasesOf r.id).map (fun a =>
                Endpoint.mk (a.hostname ++ "." ++ a.domain) [a.host] "CNAME")) ∧
      (∀ as n, records ⟨[], as, n⟩ = []) := by
  constructor
  · simp only [records]
    rw [records_foldl]
    rfl
  · intro as n
    rfl

/-- C9: a batch with no entries in any of the four lists is a no-op —
ApplyChanges returns success, issues zero remote calls (empty trace), and
leaves the backend untouched. -/
theorem c9_empty_batch_noop (b : Backend) (ch : Changes)
    (h1 : ch.Create = []) (h2 : ch.Delete = []) (h3 : ch.UpdateOld = [])
    (h4 : ch.UpdateNew = []) :
    applyChanges b ch = Step.ok { aRecs := [], cnames := [], backend := b, trace := [] } := by
  simp [applyChanges, Changes.hasChanges, h1, h2, h3, h4]

/-- Witness for C9 at a concrete backend and the empty batch. -/
theorem c9_witness :
    applyChanges ⟨[⟨"id1", "a", "x", "1.2.3.4"⟩], [], 5⟩ ⟨[], [], [], []⟩ =
      Step.ok { aRecs := [], cnames := [],
                backend := ⟨[⟨"id1", "a", "x", "1.2.3.4"⟩], [], 5⟩, trace := [] } :=
  c9_empty_batch_noop _ _ rfl rfl rfl rfl

/-- C1 counterexample: a successful Address-kind update that changes the
DNS name from "a.x" to "b.x" leaves the local address table entry still
findable under the OLD full name — the code inserts under the new name but
never deletes the old key, refuting "no longer under the old full name". -/
theorem c1_counterexample :
    applyChanges ⟨[⟨"id1", "a", "x", "1.2.3.4"⟩], [], 0⟩
        ⟨[], [⟨"a.x", ["1.2.3.4"], "A"⟩], [⟨"b.x", ["5.6.7.8"], "A"⟩], []⟩ =
      Step.ok { aRecs := [("a.x", ⟨"id1", "a", "x", "1.2.3.4"⟩),
                          ("b.x", ⟨"id1", "b", "x", "5.6.7.8"⟩)],
                cnames := [],
                backend := ⟨[⟨"id1", "b", "x", "5.6.7.8"⟩], [], 0⟩,
                trace := [Call.listHostOverrides, Call.listHostAliases "id1",
                          Call.updateHostOverride ⟨"id1", "b", "x", "5.6.7.8"⟩] } ∧
      Table.find? [("a.x", (⟨"id1", "a", "x", "1.2.3.4"⟩ : HostOverride)),
                   ("b.x", (⟨"id1", "b", "x", "5.6.7.8"⟩ : HostOverride))] "a.x" =
        some ⟨"id1", "a", "x", "1.2.3.4"⟩ ∧
      ("a.x" : String) ≠ "b.x" :=
  ⟨by decide, by decide, by decide⟩

/-- C1 amended: for an index-aligned update pair whose OLD endpoint is of
Address kind and whose old full name is in the address table, the record's
hostname/domain/target are overwritten from the NEW endpoint, the remote
update is issued keyed by the unchanged record ID, and the entry is
inserted under the new full name — but the old-name entry is NOT removed
and remains in the table when the names differ; likewise a successful
CanonicalName update inserts the alias entry under the new full name
without removing the old-name entry. -/
theorem c1_update_overwrites_and_inserts_new_name :
    (∀ (st : St) (oldEP newEP : Endpoint) (ho : HostOverride) (h d t : String)
        (ts : List String),
      oldEP.recordType = "A" →
      st.aRecs.find? oldEP.dnsName = some ho →
      splitN2 newEP.dnsName = [h, d] →
      newEP.targets = t :: ts →
      ∃ ho' st', ho' = { ho with hostname := h, domain := d, server := t } ∧
        applyUpdate st oldEP newEP = Step.ok st' ∧
        ho'.id = ho.id ∧
        st'.trace = st.trace ++ [Call.updateHostOverride ho'] ∧
        st'.aRecs.find? (h ++ "." ++ d) = some ho' ∧
        st'.aRecs = st.aRecs.insert (h ++ "." ++ d) ho') ∧
    (∀ (st : St) (oldEP newEP : Endpoint) (haOld : HostAlias) (ho : HostOverride)
        (h d t : String) (ts : List String),
      oldEP.recordType = "CNAME" →
      st.cnames.find? oldEP.dnsName = some haOld →
      newEP.targets = t :: ts →
      st.aRecs.find? t = some ho →
      splitN2 newEP.dnsName = [h, d] →
      ∃ ha' st', ha' = { haOld with hostname := h, domain := d, host := t, hostID := ho.id } ∧
        applyUpdate st oldEP newEP = Step.ok st' ∧
        st'.trace = st.trace ++ [Call.updateHostAlias ha'] ∧
        st'.cnames.find? (h ++ "." ++ d) = some ha' ∧
        st'.cnames = st.cnames.insert (h ++ "." ++ d) ha') := by
  constructor
  · intro st oldEP newEP ho h d t ts hk hfound hs ht
    exact ⟨_, _, rfl, applyUpdate_a_found st oldEP newEP ho h d t ts hk hfound hs ht,
           rfl, rfl, Table.find?_insert_self st.aRecs (h ++ "." ++ d) _, rfl⟩
  · intro st oldEP newEP haOld ho h d t ts hk hfound ht hres hs
    exact ⟨_, _, rfl,
           applyUpdate_cname_found st oldEP newEP haOld ho h d t ts hk hfound ht hres hs,
           rfl, Table.find?_insert_self st.cnames (h ++ "." ++ d) _, rfl⟩

/-- Witness for C1's amended theorem: one concrete A update and one
concrete CNAME update. -/
theorem c1_witness :
    (∃ (ho' : HostOverride) (st' : St), ho' = ⟨"id1", "b", "x", "5.6.7.8"⟩ ∧
      applyUpdate ⟨[("a.x", ⟨"id1", "a", "x", "1.2.3.4"⟩)], [], ⟨[], [], 0⟩, []⟩
          ⟨"a.x", ["1.2.3.4"], "A"⟩ ⟨"b.x", ["5.6.7.8"], "A"⟩ = Step.ok st' ∧
      ho'.id = "id1" ∧
      st'.trace = [Call.updateHostOverride ho'] ∧
      st'.aRecs.find? "b.x" = some ho') ∧
    (∃ (ha' : HostAlias) (st' : St), ha' = ⟨"al1", "a.x", "id1", "c2", "x"⟩ ∧
      applyUpdate ⟨[("a.x", ⟨"id1", "a", "x", "1.2.3.4"⟩)],
                   [("c.x", ⟨"al1", "a.x", "id1", "c", "x"⟩)], ⟨[], [], 0⟩, []⟩
          ⟨"c.x", ["a.x"], "CNAME"⟩ ⟨"c2.x", ["a.x"], "CNAME"⟩ = Step.ok st' ∧
      st'.trace = [Call.updateHostAlias ha'] ∧
      st'.cnames.find? "c2.x" = some ha') := by
  constructor
  · have h := c1_update_overwrites_and_inserts_new_name.1
      ⟨[("a.x", ⟨"id1", "a", "x", "1.2.3.4"⟩)], [], ⟨[], [], 0⟩, []⟩
      ⟨"a.x", ["1.2.3.4"], "A"⟩ ⟨"b.x", ["5.6.7.8"], "A"⟩
      ⟨"id1", "a", "x", "1.2.3.4"⟩ "b" "x" "5.6.7.8" [] rfl (by decide) (by decide) rfl
    obtain ⟨ho', st', h1, h2, h3, h4, h5, -⟩ := h
    exact ⟨ho', st', h1, h2, h3, h4, h5⟩
  · have h := c1_update_overwrites_and_inserts_new_name.2
      ⟨[("a.x", ⟨"id1", "a", "x", "1.2.3.4"⟩)],
       [("c.x", ⟨"al1", "a.x", "id1", "c", "x"⟩)], ⟨[], [], 0⟩, []⟩
      ⟨"c.x", ["a.x"], "CNAME"⟩ ⟨"c2.x", ["a.x"], "CNAME"⟩
      ⟨"al1", "a.x", "id1", "c", "x"⟩ ⟨"id1", "a", "x", "1.2.3.4"⟩
      "c2" "x" "a.x" [] rfl (by decide) rfl (by decide) (by decide)
    obtain ⟨ha', st', h1, h2, h3, h4, -⟩ := h
    exact ⟨ha', st', h1, h2, h3, h4⟩

/-- C2: creating a CanonicalName endpoint whose first target is not the
full name of an address record in the address table fails the whole
operation with an error — the state (hence trace and backend) is the one
at the error point, so no alias-create call was issued and no dangling
alias exists; if the target is present, a new alias record carrying that
address record's ID as foreign key is created remotely (backend-assigned
ID, appended to the backend, create call traced) and inserted into the
alias table under its full name. -/
theorem c2_create_alias_resolution (st : St) (ep : Endpoint) (t : String)
    (ts : List String) (hk : ep.recordType = "CNAME") (ht : ep.targets = t :: ts) :
    (st.aRecs.find? t = none →
      applyCreate st ep =
        Step.err st "failed to create host alias: target host override not found" ∧
      (∀ (b : Backend) (ch : Changes) (stD : St) (pre post : List Endpoint),
        ch.hasChanges = true →
        ch.Create = pre ++ ep :: post →
        processDeletes (initState b) ch.Delete = Step.ok stD →
        processCreates stD pre = Step.ok st →
        applyChanges b ch =
          Step.err st "failed to create host alias: target host override not found")) ∧
    (∀ (ho : HostOverride) (h d : String),
      st.aRecs.find? t = some ho →
      splitN2 ep.dnsName = [h, d] →
      ∃ (ha' : HostAlias) (st' : St),
        ha' = ⟨freshID st.backend.fresh, t, ho.id, h, d⟩ ∧
        applyCreate st ep = Step.ok st' ∧
        ha'.hostID = ho.id ∧
        st'.cnames.find? (h ++ "." ++ d) = some ha' ∧
        st'.backend.aliases = st.backend.aliases ++ [ha'] ∧
        st'.trace = st.trace ++ [Call.createHostAlias ⟨"", t, ho.id, h, d⟩]) := by
  constructor
  · intro hnone
    have hstep := applyCreate_cname_miss st ep t ts hk ht hnone
    refine ⟨hstep, ?_⟩
    intro b ch stD pre post hch hcr hdel hpre
    have h1 : processCreates st (ep :: post) =
        Step.err st "failed to create host alias: target host override not found" := by
      simp only [processCreates]
      rw [hstep]
    rw [applyChanges_phases b ch hch, hdel]
    simp only [Step.seq]
    rw [hcr, processCreates_append pre (ep :: post) stD, hpre]
    simp only [Step.seq]
    rw [h1]
  · intro ho h d hsome hs
    exact ⟨_, _, rfl, applyCreate_cname_found st ep ho h d t ts hk ht hsome hs, rfl,
           Table.find?_insert_self st.cnames (h ++ "." ++ d) _, rfl, rfl⟩

/-- Witness for C2: a dangling-target create fails the whole batch with an
error (empty backend), and a resolvable one creates the linked alias. -/
theorem c2_witness :
    (applyCreate ⟨[], [], ⟨[], [], 0⟩, [Call.listHostOverrides]⟩ ⟨"c.x", ["a.x"], "CNAME"⟩ =
      Step.err ⟨[], [], ⟨[], [], 0⟩, [Call.listHostOverrides]⟩
        "failed to create host alias: target host override not found") ∧
    (applyChanges ⟨[], [], 0⟩ ⟨[⟨"c.x", ["a.x"], "CNAME"⟩], [], [], []⟩ =
      Step.err ⟨[], [], ⟨[], [], 0⟩, [Call.listHostOverrides]⟩
        "failed to create host alias: target host override not found") ∧
    (∃ (ha' : HostAlias) (st' : St),
      ha' = ⟨freshID 0, "a.x", "id1", "c", "x"⟩ ∧
      applyCreate ⟨[("a.x", ⟨"id1", "a", "x", "1.2.3.4"⟩)], [],
                   ⟨[⟨"id1", "a", "x", "1.2.3.4"⟩], [], 0⟩, []⟩
          ⟨"c.x", ["a.x"], "CNAME"⟩ = Step.ok st' ∧
      ha'.hostID = "id1" ∧
      st'.cnames.find? "c.x" = some ha' ∧
      st'.backend.aliases = [ha'] ∧
      st'.trace = [Call.createHostAlias ⟨"", "a.x", "id1", "c", "x"⟩]) := by
  refine ⟨?_, ?_, ?_⟩
  · exact ((c2_create_alias_resolution
      ⟨[], [], ⟨[], [], 0⟩, [Call.listHostOverrides]⟩
      ⟨"c.x", ["a.x"], "CNAME"⟩ "a.x" [] rfl rfl).1 (by decide)).1
  · exact ((c2_create_alias_resolution
      ⟨[], [], ⟨[], [], 0⟩, [Call.listHostOverrides]⟩
      ⟨"c.x", ["a.x"], "CNAME"⟩ "a.x" [] rfl rfl).1 (by decide)).2
      ⟨[], [], 0⟩ ⟨[⟨"c.x", ["a.x"], "CNAME"⟩], [], [], []⟩
      ⟨[], [], ⟨[], [], 0⟩, [Call.listHostOverrides]⟩ [] []
      (by decide) rfl (by decide) (by decide)
  · obtain ⟨ha', st', h1, h2, h3, h4, h5, h6⟩ := (c2_create_alias_resolution
      ⟨[("a.x", ⟨"id1", "a", "x", "1.2.3.4"⟩)], [],
       ⟨[⟨"id1", "a", "x", "1.2.3.4"⟩], [], 0⟩, []⟩
      ⟨"c.x", ["a.x"], "CNAME"⟩ "a.x" [] rfl rfl).2
      ⟨"id1", "a", "x", "1.2.3.4"⟩ "c" "x" (by decide) (by decide)
    exact ⟨ha', st', h1, h2, h3, h4, h5, h6⟩

/-- C3: lookup-miss policy — a miss is non-fatal (the step returns the
state unchanged) for deletes of either kind and for Address-kind updates,
but fatal (an error) for a CanonicalName update whose old name has no
alias record, for alias creation with a missing referenced address record,
and for alias update with a missing referenced address record; unsupported
record kinds are skipped without error in every phase. -/
theorem c3_lookup_miss_policy :
    (∀ (st : St) (ep : Endpoint), ep.recordType = "A" →
      st.aRecs.find? ep.dnsName = none → applyDelete st ep = Step.ok st) ∧
    (∀ (st : St) (ep : Endpoint), ep.recordType = "CNAME" →
      st.cnames.find? ep.dnsName = none → applyDelete st ep = Step.ok st) ∧
    (∀ (st : St) (ep : Endpoint), ¬ep.recordType = "A" → ¬ep.recordType = "CNAME" →
      applyDelete st ep = Step.ok st) ∧
    (∀ (st : St) (o n : Endpoint), o.recordType = "A" →
      st.aRecs.find? o.dnsName = none → applyUpdate st o n = Step.ok st) ∧
    (∀ (st : St) (o n : Endpoint), o.recordType = "CNAME" →
      st.cnames.find? o.dnsName = none →
      applyUpdate st o n = Step.err st "host alias not found") ∧
    (∀ (st : St) (ep : Endpoint) (t : String) (ts : List String),
      ep.recordType = "CNAME" → ep.targets = t :: ts → st.aRecs.find? t = none →
      applyCreate st ep =
        Step.err st "failed to create host alias: target host override not found") ∧
    (∀ (st : St) (o n : Endpoint) (haOld : HostAlias) (t : String) (ts : List String),
      o.recordType = "CNAME" → st.cnames.find? o.dnsName = some haOld →
      n.targets = t :: ts → st.aRecs.find? t = none →
      applyUpdate st o n =
        Step.err st "failed to update host alias: target host override not found") ∧
    (∀ (st : St) (ep : Endpoint), ¬ep.recordType = "A" → ¬ep.recordType = "CNAME" →
      applyCreate st ep = Step.ok st ∧ ∀ n, applyUpdate st ep n = Step.ok st) := by
  refine ⟨?_, ?_, ?_, ?_, ?_, ?_, ?_, ?_⟩
  · intro st ep hk hnone
    simp [applyDelete, hk, hnone]
  · intro st ep hk hnone
    have hkA : ¬ep.recordType = "A" := by rw [hk]; decide
    simp [applyDelete, hkA, hk, hnone]
  · intro st ep h1 h2
    simp [applyDelete, h1, h2]
  · intro st o n hk hnone
    simp [applyUpdate, hk, hnone]
  · intro st o n hk hnone
    have hkA : ¬o.recordType = "A" := by rw [hk]; decide
    simp [applyUpdate, hkA, hk, hnone]
  · intro st ep t ts hk ht hnone
    have hkA : ¬ep.recordType = "A" := by rw [hk]; decide
    simp [applyCreate, hkA, hk, ht, hnone]
  · intro st o n haOld t ts hk hsome ht hnone
    have hkA : ¬o.recordType = "A" := by rw [hk]; decide
    simp [applyUpdate, hkA, hk, hsome, ht, hnone]
  · intro st ep h1 h2
    exact ⟨by simp [applyCreate, h1, h2], fun n => by simp [applyUpdate, h1, h2]⟩

/-- Witness for C3 at concrete inputs: one instance per policy case. -/
theorem c3_witness :
    (applyDelete ⟨[], [], ⟨[], [], 0⟩, []⟩ ⟨"a.x", ["1"], "A"⟩ =
      Step.ok ⟨[], [], ⟨[], [], 0⟩, []⟩) ∧
    (applyDelete ⟨[], [], ⟨[], [], 0⟩, []⟩ ⟨"c.x", ["a.x"], "CNAME"⟩ =
      Step.ok ⟨[], [], ⟨[], [], 0⟩, []⟩) ∧
    (applyDelete ⟨[], [], ⟨[], [], 0⟩, []⟩ ⟨"t.x", ["v"], "TXT"⟩ =
      Step.ok ⟨[], [], ⟨[], [], 0⟩, []⟩) ∧
    (applyUpdate ⟨[], [], ⟨[], [], 0⟩, []⟩ ⟨"a.x", ["1"], "A"⟩ ⟨"b.x", ["2"], "A"⟩ =
      Step.ok ⟨[], [], ⟨[], [], 0⟩, []⟩) ∧
    (applyUpdate ⟨[], [], ⟨[], [], 0⟩, []⟩ ⟨"c.x", ["a.x"], "CNAME"⟩ ⟨"c2.x", ["a.x"], "CNAME"⟩ =
      Step.err ⟨[], [], ⟨[], [], 0⟩, []⟩ "host alias not found") ∧
    (applyCreate ⟨[], [], ⟨[], [], 0⟩, []⟩ ⟨"c.x", ["a.x"], "CNAME"⟩ =
      Step.err ⟨[], [], ⟨[], [], 0⟩, []⟩
        "failed to create host alias: target host override not found") ∧
    (applyUpdate ⟨[], [("c.x", ⟨"al1", "a.x", "id1", "c", "x"⟩)], ⟨[], [], 0⟩, []⟩
        ⟨"c.x", ["a.x"], "CNAME"⟩ ⟨"c2.x", ["a.x"], "CNAME"⟩ =
      Step.err ⟨[], [("c.x", ⟨"al1", "a.x", "id1", "c", "x"⟩)], ⟨[], [], 0⟩, []⟩
        "failed to update host alias: target host override not found") ∧
    (applyCreate ⟨[], [], ⟨[], [], 0⟩, []⟩ ⟨"t.x", ["v"], "TXT"⟩ =
      Step.ok ⟨[], [], ⟨[], [], 0⟩, []⟩ ∧
     ∀ n, applyUpdate ⟨[], [], ⟨[], [], 0⟩, []⟩ ⟨"t.x", ["v"], "TXT"⟩ n =
      Step.ok ⟨[], [], ⟨[], [], 0⟩, []⟩) := by
  refine ⟨?_, ?_, ?_, ?_, ?_, ?_, ?_, ?_⟩
  · exact c3_lookup_miss_policy.1 _ _ rfl (by decide)
  · exact c3_lookup_miss_policy.2.1 _ _ rfl (by decide)
  · exact c3_lookup_miss_policy.2.2.1 _ _ (by decide) (by decide)
  · exact c3_lookup_miss_policy.2.2.2.1 _ _ _ rfl (by decide)
  · exact c3_lookup_miss_policy.2.2.2.2.1 _ _ _ rfl (by decide)
  · exact c3_lookup_miss_policy.2.2.2.2.2.1 _ _ "a.x" [] rfl rfl (by decide)
  · exact c3_lookup_miss_policy.2.2.2.2.2.2.1 _ _ _
      ⟨"al1", "a.x", "id1", "c", "x"⟩ "a.x" [] rfl (by decide) rfl (by decide)
  · exact c3_lookup_miss_policy.2.2.2.2.2.2.2 _ _ (by decide) (by decide)

/-- C6: read-your-writes within a batch — a successful Address-kind create
immediately inserts the record, carrying the backend-assigned ID, into the
local address table; any later CanonicalName create or update in the same
batch whose target resolves to that table entry carries that very ID as
the alias's foreign key. -/
theorem c6_read_your_writes :
    (∀ (st : St) (ep : Endpoint) (h d t : String) (ts : List String),
      ep.recordType = "A" → splitN2 ep.dnsName = [h, d] → ep.targets = t :: ts →
      ∃ st', applyCreate st ep = Step.ok st' ∧
        st'.aRecs.find? (h ++ "." ++ d) = some ⟨freshID st.backend.fresh, h, d, t⟩ ∧
        st'.backend.overrides =
          st.backend.overrides ++ [⟨freshID st.backend.fresh, h, d, t⟩]) ∧
    (∀ (st' : St) (ep2 : Endpoint) (name : String) (ts2 : List String)
        (ho : HostOverride) (h2 d2 : String),
      ep2.recordType = "CNAME" → ep2.targets = name :: ts2 →
      st'.aRecs.find? name = some ho → splitN2 ep2.dnsName = [h2, d2] →
      ∃ st'' ha', applyCreate st' ep2 = Step.ok st'' ∧
        ha'.hostID = ho.id ∧
        st''.cnames.find? (h2 ++ "." ++ d2) = some ha' ∧
        st''.trace = st'.trace ++ [Call.createHostAlias ⟨"", name, ho.id, h2, d2⟩]) ∧
    (∀ (st' : St) (o n : Endpoint) (haOld : HostAlias) (ho : HostOverride)
        (name h2 d2 : String) (ts2 : List String),
      o.recordType = "CNAME" → st'.cnames.find? o.dnsName = some haOld →
      n.targets = name :: ts2 → st'.aRecs.find? name = some ho →
      splitN2 n.dnsName = [h2, d2] →
      ∃ st'' ha', applyUpdate st' o n = Step.ok st'' ∧
        ha'.hostID = ho.id ∧
        st''.cnames.find? (h2 ++ "." ++ d2) = some ha') := by
  refine ⟨?_, ?_, ?_⟩
  · intro st ep h d t ts hk hs ht
    exact ⟨_, applyCreate_a st ep h d t ts hk hs ht,
           Table.find?_insert_self st.aRecs (h ++ "." ++ d) _, rfl⟩
  · intro st' ep2 name ts2 ho h2 d2 hk ht hsome hs
    exact ⟨_, _, applyCreate_cname_found st' ep2 ho h2 d2 name ts2 hk ht hsome hs, rfl,
           Table.find?_insert_self st'.cnames (h2 ++ "." ++ d2) _, rfl⟩
  · intro st' o n haOld ho name h2 d2 ts2 hk hfound ht hsome hs
    exact ⟨_, _, applyUpdate_cname_found st' o n haOld ho h2 d2 name ts2 hk hfound ht hsome hs,
           rfl, Table.find?_insert_self st'.cnames (h2 ++ "." ++ d2) _⟩

/-- Witness for C6: create "a.x" on an empty backend (assigned ID
"uuid-0"), then create alias "c.x" → "a.x" in the same batch state; the
alias carries foreign key "uuid-0". -/
theorem c6_witness :
    (∃ st', applyCreate ⟨[], [], ⟨[], [], 0⟩, []⟩ ⟨"a.x", ["1.2.3.4"], "A"⟩ =
        Step.ok st' ∧
      st'.aRecs.find? "a.x" = some ⟨freshID 0, "a", "x", "1.2.3.4"⟩ ∧
      st'.backend.overrides = [⟨freshID 0, "a", "x", "1.2.3.4"⟩]) ∧
    (∃ st'' ha', applyCreate
        ⟨[("a.x", ⟨"uuid-0", "a", "x", "1.2.3.4"⟩)], [],
         ⟨[⟨"uuid-0", "a", "x", "1.2.3.4"⟩], [], 1⟩,
         [Call.createHostOverride ⟨"", "a", "x", "1.2.3.4"⟩]⟩
        ⟨"c.x", ["a.x"], "CNAME"⟩ = Step.ok st'' ∧
      ha'.hostID = "uuid-0" ∧
      st''.cnames.find? "c.x" = some ha' ∧
      st''.trace = [Call.createHostOverride ⟨"", "a", "x", "1.2.3.4"⟩,
                    Call.createHostAlias ⟨"", "a.x", "uuid-0", "c", "x"⟩]) := by
  constructor
  · exact c6_read_your_writes.1 ⟨[], [], ⟨[], [], 0⟩, []⟩ ⟨"a.x", ["1.2.3.4"], "A"⟩
      "a" "x" "1.2.3.4" [] rfl (by decide) rfl
  · obtain ⟨st'', ha', h1, h2, h3, h4⟩ := c6_read_your_writes.2.1
      ⟨[("a.x", ⟨"uuid-0", "a", "x", "1.2.3.4"⟩)], [],
       ⟨[⟨"uuid-0", "a", "x", "1.2.3.4"⟩], [], 1⟩,
       [Call.createHostOverride ⟨"", "a", "x", "1.2.3.4"⟩]⟩
      ⟨"c.x", ["a.x"], "CNAME"⟩ "a.x" [] ⟨"uuid-0", "a", "x", "1.2.3.4"⟩ "c" "x"
      rfl rfl (by decide) (by decide)
    exact ⟨st'', ha', h1, h2, h3, h4⟩

/-- C7: ApplyChanges processes the Delete phase first, then Create, then
the index-aligned Update pairs; within each phase entries are processed in
the given order (each phase's loop decomposes over list concatenation with
no reordering); the first error short-circuits everything that follows —
entries after it are never processed — and the state it carries is exactly
the state at the error point, so mutations already applied are kept (no
rollback). -/
theorem c7_order_and_abort :
    (∀ (b : Backend) (ch : Changes), ch.hasChanges = true →
      applyChanges b ch =
        (processDeletes (initState b) ch.Delete).seq (fun s1 =>
          (processCreates s1 ch.Create).seq (fun s2 =>
            processUpdates s2 ch.UpdateOld ch.UpdateNew))) ∧
    (∀ (st : St) (l1 l2 : List Endpoint),
      processDeletes st (l1 ++ l2) =
        (processDeletes st l1).seq fun s => processDeletes s l2) ∧
    (∀ (st : St) (l1 l2 : List Endpoint),
      processCreates st (l1 ++ l2) =
        (processCreates st l1).seq fun s => processCreates s l2) ∧
    (∀ (st : St) (o1 n1 o2 n2 : List Endpoint), o1.length = n1.length →
      processUpdates st (o1 ++ o2) (n1 ++ n2) =
        (processUpdates st o1 n1).seq fun s => processUpdates s o2 n2) ∧
    (∀ (st stE : St) (m : String) (ep : Endpoint) (eps : List Endpoint),
      applyCreate st ep = Step.err stE m →
      processCreates st (ep :: eps) = Step.err stE m) ∧
    (∀ (st stE : St) (m : String) (o n : Endpoint) (os ns : List Endpoint),
      applyUpdate st o n = Step.err stE m →
      processUpdates st (o :: os) (n :: ns) = Step.err stE m) ∧
    (∀ (st : St) (m : String) (f : St → Step), (Step.err st m).seq f = Step.err st m) ∧
    (∀ (b : Backend) (ch : Changes) (stD stE : St) (m : String),
      ch.hasChanges = true →
      processDeletes (initState b) ch.Delete = Step.ok stD →
      processCreates stD ch.Create = Step.err stE m →
      applyChanges b ch = Step.err stE m) := by
  refine ⟨applyChanges_phases,
          fun st l1 l2 => processDeletes_append l1 l2 st,
          fun st l1 l2 => processCreates_append l1 l2 st,
          fun st o1 n1 o2 n2 h => processUpdates_append o1 n1 o2 n2 st h,
          ?_, ?_, fun st m f => rfl, ?_⟩
  · intro st stE m ep eps hstep
    simp only [processCreates]
    rw [hstep]
  · intro st stE m o n os ns hstep
    simp only [processUpdates]
    rw [hstep]
  · intro b ch stD stE m hch hdel hcr
    rw [applyChanges_phases b ch hch, hdel]
    simp only [Step.seq]
    rw [hcr]

/-- Witness for C7 at concrete inputs: the phase decomposition on a
concrete batch, a concrete update-phase split, and a concrete batch whose
create entry errors and aborts the update phase while keeping the state at
the error point. -/
theorem c7_witness :
    (applyChanges ⟨[], [], 0⟩ ⟨[⟨"a.x", ["1"], "A"⟩], [], [], [⟨"b.x", ["2"], "A"⟩]⟩ =
      (processDeletes (initState ⟨[], [], 0⟩) [⟨"b.x", ["2"], "A"⟩]).seq (fun s1 =>
        (processCreates s1 [⟨"a.x", ["1"], "A"⟩]).seq (fun s2 =>
          processUpdates s2 [] []))) ∧
    (processUpdates ⟨[], [], ⟨[], [], 0⟩, []⟩
        ([⟨"a.x", ["1"], "A"⟩] ++ [⟨"b.x", ["2"], "A"⟩])
        ([⟨"a2.x", ["1"], "A"⟩] ++ [⟨"b2.x", ["2"], "A"⟩]) =
      (processUpdates ⟨[], [], ⟨[], [], 0⟩, []⟩
          [⟨"a.x", ["1"], "A"⟩] [⟨"a2.x", ["1"], "A"⟩]).seq (fun s =>
        processUpdates s [⟨"b.x", ["2"], "A"⟩] [⟨"b2.x", ["2"], "A"⟩])) ∧
    (applyChanges ⟨[], [], 0⟩
        ⟨[⟨"a.x", ["1"], "A"⟩, ⟨"c.x", ["nope.x"], "CNAME"⟩, ⟨"d.x", ["3"], "A"⟩],
         [⟨"a.x", ["1"], "A"⟩], [⟨"a2.x", ["1"], "A"⟩], []⟩ =
      Step.err
        ⟨[("a.x", ⟨"uuid-0", "a", "x", "1"⟩)], [],
         ⟨[⟨"uuid-0", "a", "x", "1"⟩], [], 1⟩,
         [Call.listHostOverrides, Call.createHostOverride ⟨"", "a", "x", "1"⟩]⟩
        "failed to create host alias: target host override not found") := by
  refine ⟨c7_order_and_abort.1 ⟨[], [], 0⟩
            ⟨[⟨"a.x", ["1"], "A"⟩], [], [], [⟨"b.x", ["2"], "A"⟩]⟩ (by decide),
          c7_order_and_abort.2.2.2.1 ⟨[], [], ⟨[], [], 0⟩, []⟩
            [⟨"a.x", ["1"], "A"⟩] [⟨"a2.x", ["1"], "A"⟩]
            [⟨"b.x", ["2"], "A"⟩] [⟨"b2.x", ["2"], "A"⟩] (by decide),
          c7_order_and_abort.2.2.2.2.2.2.2 ⟨[], [], 0⟩
            ⟨[⟨"a.x", ["1"], "A"⟩, ⟨"c.x", ["nope.x"], "CNAME"⟩, ⟨"d.x", ["3"], "A"⟩],
             [⟨"a.x", ["1"], "A"⟩], [⟨"a2.x", ["1"], "A"⟩], []⟩
            ⟨[], [], ⟨[], [], 0⟩, [Call.listHostOverrides]⟩
            ⟨[("a.x", ⟨"uuid-0", "a", "x", "1"⟩)], [],
             ⟨[⟨"uuid-0", "a", "x", "1"⟩], [], 1⟩,
             [Call.listHostOverrides, Call.createHostOverride ⟨"", "a", "x", "1"⟩]⟩
            "failed to create host alias: target host override not found"
            (by decide) (by decide) (by decide)⟩

theorem wfEndpoint_split (e : Endpoint) (h : wfEndpoint e) :
    (∃ a b, splitN2 e.dnsName = [a, b]) ∧ ∃ t ts, e.targets = t :: ts := by
  obtain ⟨h1, h2⟩ := h
  constructor
  · match hs : splitN2 e.dnsName with
    | [] => rw [hs] at h1; simp at h1
    | [a] => rw [hs] at h1; simp at h1
    | [a, b] => exact ⟨a, b, rfl⟩
    | a :: b :: c :: r => rw [hs] at h1; simp at h1
  · match ht : e.targets with
    | [] => exact absurd ht h2
    | t :: ts => exact ⟨t, ts, rfl⟩

theorem applyDelete_ne_crash (st : St) (ep : Endpoint) :
    applyDelete st ep ≠ Step.crash := by
  by_cases h1 : ep.recordType = "A"
  · simp only [applyDelete, h1, if_true]
    cases st.aRecs.find? ep.dnsName <;> simp
  · by_cases h2 : ep.recordType = "CNAME"
    · simp only [applyDelete, h1, if_false, h2, if_true]
      cases st.cnames.find? ep.dnsName <;> simp
    · simp [applyDelete, h1, h2]

theorem applyCreate_ne_crash (st : St) (ep : Endpoint) (hwf : wfEndpoint ep) :
    applyCreate st ep ≠ Step.crash := by
  obtain ⟨⟨a, b, hs⟩, t, ts, ht⟩ := wfEndpoint_split ep hwf
  by_cases h1 : ep.recordType = "A"
  · rw [applyCreate_a st ep a b t ts h1 hs ht]
    simp
  · by_cases h2 : ep.recordType = "CNAME"
    · cases hfind : st.aRecs.find? t with
      | some ho =>
        rw [applyCreate_cname_found st ep ho a b t ts h2 ht hfind hs]
        simp
      | none =>
        rw [applyCreate_cname_miss st ep t ts h2 ht hfind]
        simp
    · simp [applyCreate, h1, h2]

theorem applyUpdate_ne_crash (st : St) (o n : Endpoint) (hwf : wfEndpoint n) :
    applyUpdate st o n ≠ Step.crash := by
  obtain ⟨⟨a, b, hs⟩, t, ts, ht⟩ := wfEndpoint_split n hwf
  by_cases h1 : o.recordType = "A"
  · cases hfind : st.aRecs.find? o.dnsName with
    | some ho =>
      rw [applyUpdate_a_found st o n ho a b t ts h1 hfind hs ht]
      simp
    | none => simp [applyUpdate, h1, hfind]
  · by_cases h2 : o.recordType = "CNAME"
    · cases hfind : st.cnames.find? o.dnsName with
      | some haOld =>
        cases hres : st.aRecs.find? t with
        | some ho =>
          rw [applyUpdate_cname_found st o n haOld ho a b t ts h2 hfind ht hres hs]
          simp
        | none =>
          have hkA : ¬o.recordType = "A" := h1
          simp [applyUpdate, hkA, h2, hfind, ht, hres]
      | none => simp [applyUpdate, h1, h2, hfind]
    · simp [applyUpdate, h1, h2]

theorem processDeletes_ne_crash (l : List Endpoint) : ∀ st : St,
    processDeletes st l ≠ Step.crash := by
  induction l with
  | nil => intro st; simp [processDeletes]
  | cons ep eps ih =>
    intro st
    simp only [processDeletes]
    cases h : applyDelete st ep with
    | ok st' => exact ih st'
    | err st' m => simp
    | crash => exact absurd h (applyDelete_ne_crash st ep)

theorem processCreates_ne_crash (l : List Endpoint) : ∀ st : St,
    (∀ e ∈ l, wfEndpoint e) → processCreates st l ≠ Step.crash := by
  induction l with
  | nil => intro st _; simp [processCreates]
  | cons ep eps ih =>
    intro st hwf
    simp only [processCreates]
    cases h : applyCreate st ep with
    | ok st' => exact ih st' (fun e he => hwf e (List.mem_cons_of_mem ep he))
    | err st' m => simp
    | crash => exact absurd h (applyCreate_ne_crash st ep (hwf ep (List.mem_cons_self ep eps)))

theorem processUpdates_ne_crash (o : List Endpoint) : ∀ (n : List Endpoint) (st : St),
    (∀ e ∈ n, wfEndpoint e) → o.length = n.length →
    processUpdates st o n ≠ Step.crash := by
  induction o with
  | nil => intro n st _ _; simp [processUpdates]
  | cons oh os ih =>
    intro n st hwf hlen
    match n with
    | [] => simp at hlen
    | nh :: ns =>
      simp only [processUpdates]
      cases h : applyUpdate st oh nh with
      | ok st' =>
        exact ih ns st' (fun e he => hwf e (List.mem_cons_of_mem nh he)) (by simpa using hlen)
      | err st' m => simp
      | crash =>
        exact absurd h (applyUpdate_ne_crash st oh nh (hwf nh (List.mem_cons_self nh ns)))

/-- C10: ApplyChanges has an unstated well-formedness precondition on batch
contents — a concrete CanonicalName create with an empty target list, or a
concrete Address create whose DNS name has no dot, terminates abnormally
(Go index out of range) instead of returning an error; conversely, when
every Create and UpdateNew endpoint has a dotted name and a non-empty
target list (and the update lists are index-aligned), ApplyChanges never
terminates abnormally. -/
theorem c10_crash_without_precondition :
    (applyChanges ⟨[], [], 0⟩ ⟨[⟨"c.x", [], "CNAME"⟩], [], [], []⟩ = Step.crash) ∧
    (applyChanges ⟨[], [], 0⟩ ⟨[⟨"nodot", ["1.2.3.4"], "A"⟩], [], [], []⟩ = Step.crash) ∧
    (∀ (b : Backend) (ch : Changes),
      (∀ e ∈ ch.Create, wfEndpoint e) →
      (∀ e ∈ ch.UpdateNew, wfEndpoint e) →
      ch.UpdateOld.length = ch.UpdateNew.length →
      applyChanges b ch ≠ Step.crash) := by
  refine ⟨by decide, by decide, ?_⟩
  intro b ch hc hu hlen
  by_cases hch : ch.hasChanges = true
  · rw [applyChanges_phases b ch hch]
    cases hd : processDeletes (initState b) ch.Delete with
    | ok st1 =>
      simp only [Step.seq]
      cases hcr : processCreates st1 ch.Create with
      | ok st2 =>
        simp only [Step.seq]
        exact processUpdates_ne_crash ch.UpdateOld ch.UpdateNew st2 hu hlen
      | err st' m => simp
      | crash => exact absurd hcr (processCreates_ne_crash ch.Create st1 hc)
    | err st' m => simp [Step.seq]
    | crash => exact absurd hd (processDeletes_ne_crash ch.Delete (initState b))
  · simp only [applyChanges, hch, if_false]
    simp

/-- Witness for C10's totality part at a concrete well-formed batch. -/
theorem c10_witness :
    applyChanges ⟨[⟨"id1", "a", "x", "1.2.3.4"⟩], [], 0⟩
        ⟨[⟨"b.x", ["2.2.2.2"], "A"⟩], [⟨"a.x", ["1.2.3.4"], "A"⟩],
         [⟨"a.x", ["9.9.9.9"], "A"⟩], [⟨"gone.x", ["0"], "A"⟩]⟩ ≠ Step.crash :=
  c10_crash_without_precondition.2.2 ⟨[⟨"id1", "a", "x", "1.2.3.4"⟩], [], 0⟩
    ⟨[⟨"b.x", ["2.2.2.2"], "A"⟩], [⟨"a.x", ["1.2.3.4"], "A"⟩],
     [⟨"a.x", ["9.9.9.9"], "A"⟩], [⟨"gone.x", ["0"], "A"⟩]⟩
    (by decide) (by decide) (by decide)

end Unbound
